import Mathlib

/-!
Verification of the Greybus manifest parser and connection manager
(drivers/staging/greybus: manifest.c, connection.c, connection.h,
greybus_desc.h) against its natural-language specification.

The byte buffer handed to `gb_manifest_parse` is modelled as a `List ℕ`
of bytes; reads go through `byteAt`, which truncates to a byte like the
C `__u8` accesses do.  Wire-format structures whose layout lives in
`greybus.h` (missing from the extracted sources) are modelled from the
spec, with each modelled constant documented at its definition.
-/

namespace Greybus

/-- Read the byte at index `i` of the buffer (0 past the end, as a total
model of the C pointer access); the `% 256` reflects that a `__u8` load
always yields a byte. -/
def byteAt (data : List ℕ) (i : ℕ) : ℕ := data.getD i 0 % 256

/-- Little-endian 16-bit load, as `le16_to_cpu` on a `__le16` field. -/
def le16At (data : List ℕ) (i : ℕ) : ℕ :=
  byteAt data i + 256 * byteAt data (i + 1)

/-- Little-endian 64-bit load, as `le64_to_cpu` on a `__le64` field. -/
def le64At (data : List ℕ) (i : ℕ) : ℕ :=
  byteAt data i
    + 256 * byteAt data (i + 1)
    + 256 ^ 2 * byteAt data (i + 2)
    + 256 ^ 3 * byteAt data (i + 3)
    + 256 ^ 4 * byteAt data (i + 4)
    + 256 ^ 5 * byteAt data (i + 5)
    + 256 ^ 6 * byteAt data (i + 6)
    + 256 ^ 7 * byteAt data (i + 7)

/-- Modelled from the spec: descriptor type enumerants of
`enum greybus_descriptor_type` in the missing `greybus.h`, following the
canonical enumeration of spec §6 (`Invalid=0`, `Module=1`, `String=2`,
`CPort=4`); the `GREYBUS_TYPE_DEVICE` and `GREYBUS_TYPE_CLASS` arms of
`identify_descriptor` are mapped to the remaining codes 3 and 5. -/
def TYPE_MODULE : ℕ := 1
/-- String descriptor type code (spec §6). -/
def TYPE_STRING : ℕ := 2
/-- Device descriptor type code (modelled, see `TYPE_MODULE`). -/
def TYPE_DEVICE : ℕ := 3
/-- CPort descriptor type code (spec §6). -/
def TYPE_CPORT : ℕ := 4
/-- Class descriptor type code (modelled, see `TYPE_MODULE`). -/
def TYPE_CLASS : ℕ := 5

/-- Modelled from the spec: `sizeof(struct greybus_descriptor_header)`.
The header is `{ __le16 size; __u8 type; }` — the size is 16-bit
little-endian per spec §6 and the type is one byte, as pinned by
manifest.c printing it with `%hhu`.  Packed size 3. -/
def HEADER_SIZE : ℕ := 3

/-- Modelled from the spec: `sizeof(struct greybus_descriptor_module)`,
the module descriptor payload `{ vendor u16, product u16, version u16,
vendor_stringid u8, product_stringid u8, serial_number u64 }` (spec §6),
packed size 16. -/
def MODULE_DESC_SIZE : ℕ := 16

/-- Modelled from the spec: `sizeof(struct greybus_descriptor_string)`,
the fixed prefix `{ id u8, length u8 }` of a string descriptor before its
flexible byte array.  manifest.c uses `desc->string.length` without
`le16_to_cpu`, pinning the length field to one byte.  Packed size 2. -/
def STRING_DESC_SIZE : ℕ := 2

/-- Modelled from the spec: `sizeof(struct greybus_descriptor_cport)`,
payload `{ number u16, speed u8, reserved u8 }` (spec §6), packed size 4. -/
def CPORT_DESC_SIZE : ℕ := 4

/-- Modelled from the spec: `sizeof(struct greybus_manifest_header)`,
the envelope `{ size u16, version_major u8, version_minor u8 }`
(spec §6), packed size 4. -/
def MANIFEST_HEADER_SIZE : ℕ := 4

/-- Modelled from the spec: `GREYBUS_VERSION_MAJOR`, the highest manifest
major version the implementation parses; the spec's example manifest has
`major=0, minor=1` and is accepted, so the supported major version is 0. -/
def GREYBUS_VERSION_MAJOR : ℕ := 0

/-- One entry of the scan-scoped descriptor index (`struct manifest_desc`
in manifest.c): the declared size, the offset of the descriptor in the
buffer (standing for the `data` pointer), and the type code. -/
structure ManifestDesc where
  size : ℕ
  offset : ℕ
  type : ℕ
  deriving DecidableEq, Repr

/-- The parse result (`struct gb_module` fields filled in by
`gb_manifest_parse_module`); strings are byte lists including the
appended NUL terminator, `none` standing for a NULL pointer. -/
structure GbModule where
  vendor : ℕ
  product : ℕ
  version : ℕ
  serial_number : ℕ
  vendor_string : Option (List ℕ)
  product_string : Option (List ℕ)
  deriving DecidableEq, Repr

/-- Success path of `identify_descriptor` (manifest.c): register the
descriptor at `off` in the index (`list_add_tail`) and return its
declared size; allocation of the index entry is modelled as always
succeeding.  `identify_descriptor` itself validates the descriptor
against the `size` remaining bytes and returns `-EINVAL` (= -22) with
the index unchanged on any violation. -/
def acceptDesc (data : List ℕ) (off : ℕ) (descs : List ManifestDesc) :
    Int × List ManifestDesc :=
  (le16At data off, descs ++ [⟨le16At data off, off, byteAt data (off + 2)⟩])

/-- Body of `identify_descriptor`: the size/type validation switch, with
`acceptDesc` as the success path (`list_add_tail` + `return desc_size`). -/
def identify_descriptor (data : List ℕ) (off size : ℕ)
    (descs : List ManifestDesc) : Int × List ManifestDesc :=
  if size < HEADER_SIZE then (-22, descs)
  else if size < le16At data off then (-22, descs)
  else if byteAt data (off + 2) = TYPE_MODULE then
    if le16At data off < MODULE_DESC_SIZE then (-22, descs)
    else acceptDesc data off descs
  else if byteAt data (off + 2) = TYPE_DEVICE then acceptDesc data off descs
  else if byteAt data (off + 2) = TYPE_CLASS then acceptDesc data off descs
  else if byteAt data (off + 2) = TYPE_STRING then
    if le16At data off < HEADER_SIZE + STRING_DESC_SIZE + byteAt data (off + 4)
    then (-22, descs)
    else acceptDesc data off descs
  else if byteAt data (off + 2) = TYPE_CPORT then
    if le16At data off < CPORT_DESC_SIZE then (-22, descs)
    else acceptDesc data off descs
  else (-22, descs)

/-- The descriptor-identification loop of `gb_manifest_parse`, made
structurally recursive on a fuel argument; `scanDescs` runs it with fuel
equal to the remaining byte count, which suffices because every accepted
descriptor consumes at least one byte (see `scanLoop_fuel_irrel`). -/
def scanLoop (data : List ℕ) :
    ℕ → ℕ → ℕ → List ManifestDesc → Option (List ManifestDesc)
  | 0, _, remaining, descs => if remaining = 0 then some descs else none
  | fuel + 1, off, remaining, descs =>
    if remaining = 0 then some descs
    else
      let r := identify_descriptor data off remaining descs
      if r.1 ≤ 0 then none
      else scanLoop data fuel (off + r.1.toNat) (remaining - r.1.toNat) r.2

/-- The `while (size)` scan of `gb_manifest_parse`: walk the descriptors
from `off`, returning the final index or `none` on any identification
failure (the code's `goto out_err`). -/
def scanDescs (data : List ℕ) (off remaining : ℕ)
    (descs : List ManifestDesc) : Option (List ManifestDesc) :=
  scanLoop data remaining off remaining descs

/-- The predicate `gb_string_get` matches descriptors against: a
String-type index entry whose embedded id equals `sid`. -/
def stringMatch (data : List ℕ) (sid : ℕ) (d : ManifestDesc) : Bool :=
  d.type = TYPE_STRING && byteAt data (d.offset + HEADER_SIZE) = sid

/-- Function `gb_string_get` (manifest.c): resolve a string id against the index.
Id 0 yields `ok none` (NULL, no error).  Otherwise the first matching
String descriptor is copied — `length` bytes followed by the forced NUL
— and removed from the index; no match yields `-ENOENT` (= -2).
`kmemdup` is modelled as always succeeding. -/
def gb_string_get (data : List ℕ) (descs : List ManifestDesc) (sid : ℕ) :
    Except Int (Option (List ℕ)) × List ManifestDesc :=
  if sid = 0 then (.ok none, descs)
  else
    match descs.find? (stringMatch data sid) with
    | none => (.error (-2), descs)
    | some d =>
      let len := byteAt data (d.offset + HEADER_SIZE + 1)
      let s := (List.range len).map
        (fun i => byteAt data (d.offset + HEADER_SIZE + 2 + i)) ++ [0]
      (.ok (some s), descs.eraseP (stringMatch data sid))

/-- Function `gb_manifest_parse_module` (manifest.c): build the `gb_module` from
the module descriptor at `md.offset`; either string resolution failing
aborts with no module (the code frees the partial `gmod` and returns
NULL), and on success the module descriptor itself is released from the
index.  `kzalloc` of the module is modelled as always succeeding. -/
def gb_manifest_parse_module (data : List ℕ) (md : ManifestDesc)
    (descs : List ManifestDesc) : Option GbModule × List ManifestDesc :=
  let off := md.offset
  let v := gb_string_get data descs (byteAt data (off + HEADER_SIZE + 6))
  match v.1 with
  | .error _ => (none, v.2)
  | .ok vstr =>
    let p := gb_string_get data v.2 (byteAt data (off + HEADER_SIZE + 7))
    match p.1 with
    | .error _ => (none, p.2)
    | .ok pstr =>
      (some { vendor := le16At data (off + HEADER_SIZE),
              product := le16At data (off + HEADER_SIZE + 2),
              version := le16At data (off + HEADER_SIZE + 4),
              serial_number := le64At data (off + HEADER_SIZE + 8),
              vendor_string := vstr,
              product_string := pstr },
       p.2.erase md)

/-- Number of Module-type entries in the index (the `found` counter of
`gb_manifest_parse`). -/
def moduleCount (descs : List ManifestDesc) : ℕ :=
  (descs.filter (fun d => d.type = TYPE_MODULE)).length

/-- Function `gb_manifest_parse` (manifest.c): envelope checks (minimum length,
declared size equal to buffer length, supported major version), the
descriptor scan, the exactly-one-module check, then module assembly.
Returns the module or `none` (NULL).  The descriptor index is scoped to
the parse (the source's global list is empty at entry and released on
every exit path). -/
def gb_manifest_parse (data : List ℕ) (size : ℕ) : Option GbModule :=
  if size ≤ MANIFEST_HEADER_SIZE then none
  else if le16At data 0 ≠ size then none
  else if GREYBUS_VERSION_MAJOR < byteAt data 2 then none
  else
    match scanDescs data MANIFEST_HEADER_SIZE (size - MANIFEST_HEADER_SIZE) [] with
    | none => none
    | some descs =>
      if moduleCount descs ≠ 1 then none
      else
        match descs.find? (fun d => d.type = TYPE_MODULE) with
        | none => none
        | some md => (gb_manifest_parse_module data md descs).1

/-! ## Connection manager (connection.c) -/

/-- Constant `U16_MAX`, the modulus the source applies in `gb_connection_op_id`. -/
def U16_MAX : ℕ := 65535

/-- Reinterpret the 32-bit counter bits `c < 2^32` as the signed `int`
value `atomic_inc_return` yields (two's complement). -/
def i32ofBits (c : ℕ) : ℤ :=
  if c < 2 ^ 31 then (c : ℤ) else (c : ℤ) - 2 ^ 32

/-- The C cast `(u16)i`: reduce an `int` to its low 16 bits. -/
def u16ofInt (i : ℤ) : ℕ := (i % 65536).toNat

/-- Function `gb_connection_op_id` (connection.c):
`(u16)(atomic_inc_return(&connection->op_cycle) % U16_MAX)`.
The state is the counter's 32-bit bit pattern; `atomic_inc_return`
increments with wraparound at `2^32` and yields the new value as a
signed `int`, C `%` truncates toward zero (`Int.tmod`), and the result
is cast to `u16`.  Returns (operation id, new counter state). -/
def gb_connection_op_id (cycle : ℕ) : ℕ × ℕ :=
  let cycle' := (cycle + 1) % 2 ^ 32
  (u16ofInt ((i32ofBits cycle').tmod (U16_MAX : ℤ)), cycle')

/-- Counter state after `n` calls to `gb_connection_op_id`, starting
from bit pattern `c0` (a fresh connection has `c0 = 0`, set by
`atomic_set(&connection->op_cycle, 0)` in `gb_connection_create`). -/
def opState (c0 : ℕ) : ℕ → ℕ
  | 0 => c0
  | n + 1 => (gb_connection_op_id (opState c0 n)).2

/-- The value returned by the `n`-th call (`n ≥ 1`) to
`gb_connection_op_id` on a connection whose counter started at `c0`. -/
def opIdSeq (c0 n : ℕ) : ℕ := (gb_connection_op_id (opState c0 (n - 1))).1

/-- Modelled from the spec: `ida_simple_get(ida, start, bound, ...)` of
the kernel `ida` used by `hd_connection_hd_cport_id_alloc` lives in
`lib/idr.c`, which is not among the extracted sources; per spec §4.5 it
returns the lowest-numbered free id in the range.  `findFree s b start`
returns the first id in `[start, start + b)` not in the allocated set
`s`, or `none`. -/
def findFree (s : Finset ℕ) : ℕ → ℕ → Option ℕ
  | 0, _ => none
  | b + 1, i => if i ∈ s then findFree s b (i + 1) else some i

/-- Function `hd_connection_hd_cport_id_alloc` (connection.c): allocate the
lowest free CPort id in `[0, max)` from the host's allocated-id set
(`max` stands for `HOST_DEV_CPORT_ID_MAX`, whose definition is in the
missing `greybus.h`); returns the id and the new set, or `none`
(the source returns `false`). -/
def cportAlloc (max : ℕ) (s : Finset ℕ) : Option (ℕ × Finset ℕ) :=
  (findFree s max 0).map (fun i => (i, insert i s))

/-- Function `hd_connection_hd_cport_id_free` (connection.c): `ida_simple_remove`
returns the id to the pool. -/
def cportFree (s : Finset ℕ) (id : ℕ) : Finset ℕ := s.erase id

/-- The per-host state the connection registry mutates: the host's
CPort-id allocator contents (`hd->cport_id_map`) and the list of live
connections on `hd->connections`, each connection represented by its
`hd_cport_id`, in creation order (`list_add_tail`). -/
structure HostState where
  allocated : Finset ℕ
  conns : List ℕ
  deriving DecidableEq

/-- The empty host: no ids allocated, no live connections. -/
def initHost : HostState := ⟨∅, []⟩

/-- One registry operation: `gb_connection_create` (create), or
`gb_connection_destroy` of the `k`-th live connection (destroy). -/
inductive GbOp where
  | create
  | destroy (k : ℕ)
  deriving DecidableEq, Repr

/-- Functions `gb_connection_create` / `gb_connection_destroy` (connection.c) as a
step on the host state.  Create allocates a local id via the CPort
allocator and appends the connection; on allocation failure nothing
changes (the source frees the half-built connection and returns NULL).
Destroy removes the `k`-th live connection from the registry and only
then returns its id to the allocator; a `k` naming no live connection is
a no-op (the source's `WARN_ON(!connection) return`). -/
def stepOp (max : ℕ) (s : HostState) : GbOp → HostState
  | .create =>
    match cportAlloc max s.allocated with
    | none => s
    | some (i, a') => ⟨a', s.conns ++ [i]⟩
  | .destroy k =>
    if h : k < s.conns.length then
      ⟨cportFree s.allocated (s.conns.get ⟨k, h⟩), s.conns.eraseIdx k⟩
    else s

/-- Run a sequence of registry operations from the empty host. -/
def runOps (max : ℕ) (ops : List GbOp) : HostState :=
  ops.foldl (stepOp max) initHost

/-- Repeated `gb_connection_create` with no intervening destroy: the
list of ids handed out by `n` successful sequential allocations from the
empty allocator. -/
def allocRun (max : ℕ) : ℕ → List ℕ × Finset ℕ
  | 0 => ([], ∅)
  | n + 1 =>
    let (ids, s) := allocRun max n
    match cportAlloc max s with
    | none => (ids, s)
    | some (i, s') => (ids ++ [i], s')

/-! ## Auxiliary definitions for the theorems -/

/-- Closed form of the value `gb_connection_op_id` returns when the
counter's post-increment bit pattern is `c`: the two's-complement
reinterpretation, C truncating `%`, and the `u16` cast collapse to
`c % 65535` except at the two residues where the negative range of the
`int` perturbs the result (see `opId_eq_gVal`). -/
def gVal (c : ℕ) : ℕ :=
  if c < 2 ^ 31 then c % 65535
  else if c % 65535 = 0 then 65535
  else if c % 65535 = 1 then 0
  else c % 65535

/-- The registry invariant: live connections hold pairwise distinct
local cport ids, and every live id is currently allocated. -/
def HostInv (s : HostState) : Prop :=
  s.conns.Nodup ∧ ∀ i ∈ s.conns, i ∈ s.allocated

/-- The spec §8 example manifest exactly as the claim states it:
envelope `{size=23, major=0, minor=1}` followed by one module descriptor
with declared size 15, vendor `0x1234`, product `0x5678`, version 1,
both string ids 0, serial 0. -/
def exampleManifestSize15 : List ℕ :=
  [23, 0, 0, 1,
   15, 0, 1,
   0x34, 0x12, 0x78, 0x56, 1, 0, 0, 0,
   0, 0, 0, 0, 0, 0, 0, 0]

/-- The spec §8 example manifest with the module descriptor's declared
size corrected to 19 = `HEADER_SIZE + MODULE_DESC_SIZE`, the only value
that both passes `identify_descriptor` and tiles the 23-byte envelope. -/
def exampleManifestSize19 : List ℕ :=
  [23, 0, 0, 1,
   19, 0, 1,
   0x34, 0x12, 0x78, 0x56, 1, 0, 0, 0,
   0, 0, 0, 0, 0, 0, 0, 0]

/-- A 9-byte manifest whose single descriptor is a CPort descriptor, so
it scans cleanly but contains zero module descriptors. -/
def cportOnlyManifest : List ℕ := [9, 0, 0, 0, 5, 0, 4, 7, 0]

/-- A buffer holding two string descriptors (at offsets 0 and 7) that
both carry id 1, with payloads "AB" and "CD". -/
def dupStringsData : List ℕ :=
  [7, 0, 2, 1, 2, 65, 66,
   7, 0, 2, 1, 2, 67, 68]

/-- The descriptor index over `dupStringsData`: both string descriptors
registered, in scan order. -/
def dupStringsIndex : List ManifestDesc := [⟨7, 0, 2⟩, ⟨7, 7, 2⟩]

/-- A buffer holding a single string descriptor with id 1, payload
"AB". -/
def oneStringData : List ℕ := [7, 0, 2, 1, 2, 65, 66]

/-- The descriptor index over `oneStringData`. -/
def oneStringIndex : List ManifestDesc := [⟨7, 0, 2⟩]

/-- A buffer whose module descriptor at offset 0 declares vendor string
id 1 (byte 9 = `offset + HEADER_SIZE + 6`) that no string descriptor
provides. -/
def vendorSidData : List ℕ := [0, 0, 0, 0, 0, 0, 0, 0, 0, 1]

/-! ## Helper lemmas -/

/-- C truncating division: the remainder of a negated natural. -/
lemma neg_ofNat_tmod (a b : ℕ) :
    (-(a : ℤ)).tmod (b : ℤ) = -((a % b : ℕ) : ℤ) := by
  cases a with
  | zero => simp [Int.tmod]
  | succ k => rfl

/-- The signed-`%`-then-`u16`-cast pipeline of `gb_connection_op_id`
agrees with the closed form `gVal` on every 32-bit counter pattern. -/
lemma opId_eq_gVal (c : ℕ) (hc : c < 2 ^ 32) :
    u16ofInt ((i32ofBits c).tmod (U16_MAX : ℤ)) = gVal c := by
  unfold u16ofInt i32ofBits gVal U16_MAX
  by_cases h : c < 2 ^ 31
  · rw [if_pos h, if_pos h, ← Int.ofNat_tmod]
    omega
  · rw [if_neg h, if_neg h]
    have ht : ((c : ℤ) - 2 ^ 32) = -(((2 ^ 32 - c : ℕ) : ℤ)) := by
      push_cast; omega
    rw [ht, neg_ofNat_tmod]
    have h32 : 2 ^ 32 - c + c = 2 ^ 32 := by omega
    split_ifs <;> omega

/-- Two counter patterns fewer than 65535 steps apart (modulo the 32-bit
wrap) never yield the same operation id. -/
lemma gVal_inj (a d : ℕ) (ha : a < 2 ^ 32) (hd1 : 1 ≤ d) (hd2 : d ≤ 65534) :
    gVal a ≠ gVal ((a + d) % 2 ^ 32) := by
  obtain ⟨b, hb, hcase⟩ :
      ∃ b, (a + d) % 2 ^ 32 = b ∧
        (a + d < 2 ^ 32 ∧ b = a + d ∨ 2 ^ 32 ≤ a + d ∧ b + 2 ^ 32 = a + d) :=
    ⟨(a + d) % 2 ^ 32, rfl, by omega⟩
  rw [hb]
  unfold gVal
  split_ifs <;> omega

/-- After `n ≥ 1` calls the counter holds `(c0 + n) % 2^32`. -/
lemma opState_eq (c0 : ℕ) : ∀ n, 1 ≤ n → opState c0 n = (c0 + n) % 2 ^ 32 := by
  intro n hn
  induction n with
  | zero => omega
  | succ m ih =>
    by_cases hm : 1 ≤ m
    · show (gb_connection_op_id (opState c0 m)).2 = _
      rw [ih hm]
      show ((c0 + m) % 2 ^ 32 + 1) % 2 ^ 32 = (c0 + (m + 1)) % 2 ^ 32
      omega
    · have hz : m = 0 := by omega
      subst hz
      rfl

/-- Closed form for the `n`-th returned operation id. -/
lemma opIdSeq_eq (c0 n : ℕ) (hn : 1 ≤ n) :
    opIdSeq c0 n = gVal ((c0 + n) % 2 ^ 32) := by
  have hkey : (opState c0 (n - 1) + 1) % 2 ^ 32 = (c0 + n) % 2 ^ 32 := by
    by_cases h1 : 1 ≤ n - 1
    · rw [opState_eq c0 (n - 1) h1]; omega
    · have hone : n = 1 := by omega
      subst hone
      rfl
  show u16ofInt ((i32ofBits ((opState c0 (n - 1) + 1) % 2 ^ 32)).tmod (U16_MAX : ℤ)) = _
  rw [hkey]
  exact opId_eq_gVal _ (Nat.mod_lt _ (by norm_num))

/-- A descriptor accepted by `identify_descriptor` consumed at least one
byte and at most the remaining count. -/
lemma identify_pos (data : List ℕ) (off size : ℕ) (descs : List ManifestDesc)
    (r : Int) (descs' : List ManifestDesc)
    (h : identify_descriptor data off size descs = (r, descs')) (hr : 0 < r) :
    1 ≤ r.toNat ∧ r.toNat ≤ size := by
  unfold identify_descriptor acceptDesc at h
  split_ifs at h <;> (injection h with h1 h2; subst h1) <;> omega

/-- A descriptor declaring size zero is never accepted. -/
lemma identify_zero (data : List ℕ) (off size : ℕ) (descs : List ManifestDesc)
    (h0 : le16At data off = 0) :
    (identify_descriptor data off size descs).1 ≤ 0 := by
  unfold identify_descriptor acceptDesc
  rw [h0]
  split_ifs <;>
    simp_all [STRING_DESC_SIZE, CPORT_DESC_SIZE, MODULE_DESC_SIZE]

/-- A zero-size descriptor at the scan head aborts the whole scan. -/
lemma scan_zero_abort (data : List ℕ) (off remaining : ℕ)
    (descs : List ManifestDesc) (hrem : 0 < remaining)
    (h0 : le16At data off = 0) :
    scanDescs data off remaining descs = none := by
  obtain ⟨m, rfl⟩ : ∃ m, remaining = m + 1 := ⟨remaining - 1, by omega⟩
  show scanLoop data (m + 1) off (m + 1) descs = none
  rw [scanLoop]
  rw [if_neg (by omega : ¬(m + 1 = 0))]
  rw [if_pos (identify_zero data off (m + 1) descs h0)]

/-- The fuelled loop is insensitive to any fuel at least the remaining
byte count: the scan halts within `remaining` iterations. -/
lemma scanLoop_fuel_irrel (data : List ℕ) :
    ∀ f1 f2 off remaining descs, remaining ≤ f1 → remaining ≤ f2 →
      scanLoop data f1 off remaining descs =
        scanLoop data f2 off remaining descs := by
  intro f1
  induction f1 with
  | zero =>
    intro f2 off remaining descs h1 h2
    have hz : remaining = 0 := by omega
    subst hz
    cases f2 <;> simp [scanLoop]
  | succ g ih =>
    intro f2 off remaining descs h1 h2
    by_cases hz : remaining = 0
    · subst hz
      cases f2 <;> simp [scanLoop]
    · obtain ⟨g2, rfl⟩ : ∃ g2, f2 = g2 + 1 := ⟨f2 - 1, by omega⟩
      rw [scanLoop, scanLoop, if_neg hz, if_neg hz]
      by_cases hle : (identify_descriptor data off remaining descs).1 ≤ 0
      · rw [if_pos hle, if_pos hle]
      · rw [if_neg hle, if_neg hle]
        have hb := identify_pos data off remaining descs
          (identify_descriptor data off remaining descs).1
          (identify_descriptor data off remaining descs).2 rfl (by omega)
        exact ih g2 _ _ _ (by omega) (by omega)

/-- If at most one element satisfies `p`, then after `eraseP p` none
does. -/
lemma find_eraseP_none {α : Type} (p : α → Bool) :
    ∀ l : List α, (l.filter p).length ≤ 1 → (l.eraseP p).find? p = none := by
  intro l
  induction l with
  | nil => simp
  | cons a t ih =>
    intro h
    by_cases hp : p a
    · rw [List.eraseP_cons_of_pos hp]
      rw [List.find?_eq_none]
      intro x hx
      rw [List.filter_cons_of_pos hp, List.length_cons] at h
      have hnil : t.filter p = [] := List.eq_nil_of_length_eq_zero (by omega)
      exact List.filter_eq_nil_iff.mp hnil x hx
    · rw [List.eraseP_cons_of_neg hp, List.find?_cons_of_neg _ hp]
      apply ih
      rw [List.filter_cons_of_neg hp] at h
      exact h

/-- Characterization of a successful `findFree`: the result is the least
free id at or above `start`. -/
lemma findFree_some (s : Finset ℕ) :
    ∀ b start i, findFree s b start = some i →
      start ≤ i ∧ i < start + b ∧ i ∉ s ∧ ∀ j, start ≤ j → j < i → j ∈ s := by
  intro b
  induction b with
  | zero => intro start i h; simp [findFree] at h
  | succ c ih =>
    intro start i h
    rw [findFree] at h
    by_cases hm : start ∈ s
    · rw [if_pos hm] at h
      obtain ⟨h1, h2, h3, h4⟩ := ih (start + 1) i h
      refine ⟨by omega, by omega, h3, fun j hj1 hj2 => ?_⟩
      by_cases hj : j = start
      · subst hj; exact hm
      · exact h4 j (by omega) hj2
    · rw [if_neg hm] at h
      injection h with h1
      subst h1
      exact ⟨le_refl _, by omega, hm, fun j hj1 hj2 => by omega⟩

/-- When every id in the window is taken, `findFree` fails. -/
lemma findFree_none_of_full (s : Finset ℕ) :
    ∀ b start, (∀ j, start ≤ j → j < start + b → j ∈ s) →
      findFree s b start = none := by
  intro b
  induction b with
  | zero => intro start _; rfl
  | succ c ih =>
    intro start h
    rw [findFree, if_pos (h start (le_refl _) (by omega))]
    exact ih (start + 1) (fun j hj1 hj2 => h j (by omega) (by omega))

/-- Over the allocated set `{0, …, k-1}`, the next free id is `k`. -/
lemma findFree_range (k : ℕ) :
    ∀ b start, start ≤ k → k < start + b →
      findFree (Finset.range k) b start = some k := by
  intro b
  induction b with
  | zero => intro start h1 h2; omega
  | succ c ih =>
    intro start h1 h2
    rw [findFree]
    by_cases hm : start < k
    · rw [if_pos (Finset.mem_range.mpr hm)]
      exact ih (start + 1) (by omega) (by omega)
    · have hs : start = k := by omega
      subst hs
      rw [if_neg (by simp)]

/-- Characterization of a successful `cportAlloc`: the returned id is
the lowest free id below `max` and it becomes allocated. -/
lemma cportAlloc_some (max : ℕ) (s : Finset ℕ) (i : ℕ) (s' : Finset ℕ)
    (h : cportAlloc max s = some (i, s')) :
    i < max ∧ i ∉ s ∧ (∀ j, j < i → j ∈ s) ∧ s' = insert i s := by
  unfold cportAlloc at h
  cases hff : findFree s max 0 with
  | none => rw [hff] at h; simp at h
  | some j =>
    rw [hff] at h
    simp at h
    obtain ⟨rfl, rfl⟩ := h
    obtain ⟨_, h2, h3, h4⟩ := findFree_some s max 0 j hff
    exact ⟨by omega, h3, fun j' hj' => h4 j' (by omega) hj', rfl⟩

/-- Running `N ≤ max` allocations from the empty allocator hands out
exactly `0, …, N-1` in order. -/
lemma allocRun_eq (max : ℕ) :
    ∀ N, N ≤ max → allocRun max N = (List.range N, Finset.range N) := by
  intro N
  induction N with
  | zero => intro _; simp [allocRun]
  | succ n ih =>
    intro h
    rw [allocRun, ih (by omega)]
    show (match cportAlloc max (Finset.range n) with
      | none => (List.range n, Finset.range n)
      | some (i, s') => (List.range n ++ [i], s')) = _
    rw [show cportAlloc max (Finset.range n) =
        some (n, insert n (Finset.range n)) by
      unfold cportAlloc
      rw [findFree_range n max 0 (by omega) (by omega)]
      rfl]
    simp [List.range_succ, Finset.range_succ]

/-- One registry step preserves the uniqueness invariant. -/
lemma stepOp_inv (max : ℕ) (s : HostState) (op : GbOp) (h : HostInv s) :
    HostInv (stepOp max s op) := by
  obtain ⟨hnd, hsub⟩ := h
  cases op with
  | create =>
    show HostInv (match cportAlloc max s.allocated with
      | none => s
      | some (i, a') => ⟨a', s.conns ++ [i]⟩)
    cases halloc : cportAlloc max s.allocated with
    | none => exact ⟨hnd, hsub⟩
    | some p =>
      obtain ⟨i, a'⟩ := p
      obtain ⟨_, hni, _, rfl⟩ := cportAlloc_some max s.allocated i a' halloc
      constructor
      · rw [List.nodup_append]
        exact ⟨hnd, List.nodup_singleton i,
          fun a ha hb => hni (by simp at hb; subst hb; exact hsub a ha)⟩
      · intro j hj
        rcases List.mem_append.mp hj with hj | hj
        · exact Finset.mem_insert_of_mem (hsub j hj)
        · simp at hj; subst hj; exact Finset.mem_insert_self _ _
  | destroy k =>
    show HostInv (if hk : k < s.conns.length then _ else s)
    by_cases hk : k < s.conns.length
    · rw [dif_pos hk]
      have herase : s.conns.eraseIdx k = s.conns.erase (s.conns.get ⟨k, hk⟩) :=
        (hnd.erase_get ⟨k, hk⟩).symm
      constructor
      · show (s.conns.eraseIdx k).Nodup
        exact hnd.sublist (List.eraseIdx_sublist s.conns k)
      · intro j hj
        show j ∈ s.allocated.erase (s.conns.get ⟨k, hk⟩)
        rw [herase] at hj
        rw [List.Nodup.mem_erase_iff hnd] at hj
        exact Finset.mem_erase.mpr ⟨hj.1, hsub j hj.2⟩
    · rw [dif_neg hk]; exact ⟨hnd, hsub⟩

/-- Every state reachable from the empty host satisfies the uniqueness
invariant. -/
lemma runOps_inv (max : ℕ) (ops : List GbOp) : HostInv (runOps max ops) := by
  suffices h : ∀ s, HostInv s → HostInv (ops.foldl (stepOp max) s) from
    h initHost ⟨List.nodup_nil, by simp [initHost]⟩
  induction ops with
  | nil => intro s hs; exact hs
  | cons op t ih =>
    intro s hs
    exact ih (stepOp max s op) (stepOp_inv max s op hs)

/-- Destroying the `k`-th live connection removes its id from the live
set and returns it to the free pool. -/
lemma destroy_removes (max : ℕ) (s : HostState) (h : HostInv s) (k : ℕ)
    (hk : k < s.conns.length) :
    s.conns.getD k 0 ∉ (stepOp max s (.destroy k)).allocated ∧
    s.conns.getD k 0 ∉ (stepOp max s (.destroy k)).conns := by
  have hget : s.conns.getD k 0 = s.conns.get ⟨k, hk⟩ := by
    simp [List.getD_eq_getElem?_getD, List.getElem?_eq_getElem hk]
  have hstep : stepOp max s (.destroy k) =
      ⟨cportFree s.allocated (s.conns.get ⟨k, hk⟩), s.conns.eraseIdx k⟩ := by
    show (if h' : k < s.conns.length then
        (⟨cportFree s.allocated (s.conns.get ⟨k, h'⟩),
          s.conns.eraseIdx k⟩ : HostState)
      else s) = _
    rw [dif_pos hk]
  rw [hstep, hget]
  refine ⟨Finset.not_mem_erase _ _, ?_⟩
  rw [show s.conns.eraseIdx k = s.conns.erase (s.conns.get ⟨k, hk⟩) from
    (h.1.erase_get ⟨k, hk⟩).symm]
  intro hmem
  rw [List.Nodup.mem_erase_iff h.1] at hmem
  exact hmem.1 rfl

/-! ## Claim theorems -/

/-- C1 (amended): for a single connection, `gb_connection_op_id` never
returns the same value twice within any window of 65535 consecutive
calls — the returned operation id recycles with period 65535 (the code
reduces modulo `U16_MAX` = 65535), while the underlying 32-bit
`op_cycle` counter wraps at `2^32`. -/
theorem c1_op_ids_distinct_within_65535 (c0 m n : ℕ)
    (hm : 1 ≤ m) (hmn : m < n) (hw : n - m ≤ 65534) :
    opIdSeq c0 m ≠ opIdSeq c0 n := by
  rw [opIdSeq_eq c0 m hm, opIdSeq_eq c0 n (by omega)]
  have hb : (c0 + n) % 2 ^ 32 = ((c0 + m) % 2 ^ 32 + (n - m)) % 2 ^ 32 := by
    omega
  rw [hb]
  exact gVal_inj _ (n - m) (Nat.mod_lt _ (by norm_num)) (by omega) hw

/-- C1 counterexample: on a fresh connection, calls 1 and 65536 — two
distinct calls inside one window of 65536 consecutive calls — both
return operation id 1, because the code wraps at `U16_MAX` = 65535, not
65536. -/
theorem c1_counterexample : opIdSeq 0 1 = 1 ∧ opIdSeq 0 65536 = 1 := by
  refine ⟨by decide, ?_⟩
  rw [opIdSeq_eq 0 65536 (by norm_num)]
  decide

/-- C1 witness: the amended theorem applied to calls 1 and 2 on a fresh
connection. -/
theorem c1_witness : opIdSeq 0 1 ≠ opIdSeq 0 2 :=
  c1_op_ids_distinct_within_65535 0 1 2 (by decide) (by decide) (by decide)

/-- C2 (amended): the spec §8 example with the module descriptor's
declared size corrected from 15 to 19 parses successfully into the
module record `{vendor := 0x1234, product := 0x5678, version := 1,
serial := 0, no strings}`. -/
theorem c2_example_manifest_parses :
    gb_manifest_parse exampleManifestSize19 23 =
      some ⟨0x1234, 0x5678, 1, 0, none, none⟩ := by decide

/-- C2 counterexample: with the declared descriptor size 15 exactly as
the claim states, `gb_manifest_parse` rejects the buffer (15 is below
the 16-byte module-payload minimum enforced by `identify_descriptor`,
and 4 + 15 cannot tile the 23-byte envelope). -/
theorem c2_counterexample :
    gb_manifest_parse exampleManifestSize15 23 = none := by decide

/-- C3: whenever the descriptor scan succeeds but indexes a number of
Module descriptors different from one — zero, or two or more —
`gb_manifest_parse` fails, whatever the other descriptors are. -/
theorem c3_module_count_gate (data : List ℕ) (size : ℕ)
    (descs : List ManifestDesc)
    (hscan : scanDescs data MANIFEST_HEADER_SIZE
      (size - MANIFEST_HEADER_SIZE) [] = some descs)
    (hcount : moduleCount descs ≠ 1) :
    gb_manifest_parse data size = none := by
  unfold gb_manifest_parse
  split_ifs with h1 h2 h3
  · rfl
  · rfl
  · rfl
  · rw [hscan]
    simp [hcount]

/-- C3 witness: a manifest holding one CPort descriptor and no module
descriptor is rejected. -/
theorem c3_witness : gb_manifest_parse cportOnlyManifest 9 = none :=
  c3_module_count_gate cportOnlyManifest 9 [⟨5, 4, 4⟩] (by decide) (by decide)

/-- C4: whenever the envelope's declared total size differs from the
buffer length passed in, `gb_manifest_parse` fails, for every content of
the rest of the buffer. -/
theorem c4_size_mismatch_rejected (data : List ℕ) (size : ℕ)
    (h : le16At data 0 ≠ size) :
    gb_manifest_parse data size = none := by
  unfold gb_manifest_parse
  split_ifs with h1 h2
  · rfl
  · rfl

/-- C4 witness: a 9-byte envelope presented as a 10-byte buffer is
rejected. -/
theorem c4_witness : gb_manifest_parse cportOnlyManifest 10 = none :=
  c4_size_mismatch_rejected cportOnlyManifest 10 (by decide)

/-- C5: the descriptor scan terminates on every input: a descriptor
declaring size zero aborts the parse with failure; every accepted
descriptor consumes between 1 and `remaining` bytes, strictly
decreasing the remaining count; and the loop finishes within
`remaining` iterations (any fuel at least `remaining` computes the
same result). -/
theorem c5_scan_terminates (data : List ℕ) (off remaining : ℕ)
    (descs : List ManifestDesc) (hrem : 0 < remaining) :
    (le16At data off = 0 → scanDescs data off remaining descs = none) ∧
    (∀ r descs', identify_descriptor data off remaining descs = (r, descs') →
      0 < r → r.toNat ≤ remaining ∧ remaining - r.toNat < remaining) ∧
    (∀ fuel, remaining ≤ fuel →
      scanLoop data fuel off remaining descs =
        scanDescs data off remaining descs) := by
  refine ⟨scan_zero_abort data off remaining descs hrem,
          fun r descs' h hr => ?_,
          fun fuel hf =>
            scanLoop_fuel_irrel data fuel remaining off remaining descs hf
              (le_refl _)⟩
  have hb := identify_pos data off remaining descs r descs' h hr
  omega

/-- C5 witness: the theorem applied to a scan position whose descriptor
header reads size zero. -/
theorem c5_witness : scanDescs [] 0 1 [] = none :=
  (c5_scan_terminates [] 0 1 [] (by decide)).1 (by decide)

/-- C6 (amended): for a nonzero string id, provided the index holds at
most one matching string descriptor, a successful `gb_string_get`
removes the matching descriptor and a second call fails with `-ENOENT`;
with duplicate ids the second call resolves the other copy instead. -/
theorem c6_string_single_use (data : List ℕ) (descs : List ManifestDesc)
    (sid : ℕ) (hsid : sid ≠ 0)
    (huniq : (descs.filter (stringMatch data sid)).length ≤ 1)
    (res : Except Int (Option (List ℕ))) (descs' : List ManifestDesc)
    (hcall : gb_string_get data descs sid = (res, descs'))
    (hok : ∃ s, res = .ok (some s)) :
    descs'.find? (stringMatch data sid) = none ∧
    gb_string_get data descs' sid = (.error (-2), descs') := by
  obtain ⟨s, rfl⟩ := hok
  unfold gb_string_get at hcall
  rw [if_neg hsid] at hcall
  cases hfind : descs.find? (stringMatch data sid) with
  | none =>
    rw [hfind] at hcall
    injection hcall with h1 h2
    exact absurd h1 (by simp)
  | some d =>
    rw [hfind] at hcall
    simp only at hcall
    injection hcall with h1 h2
    subst h2
    have hnone := find_eraseP_none (stringMatch data sid) descs huniq
    refine ⟨hnone, ?_⟩
    unfold gb_string_get
    rw [if_neg hsid, hnone]

/-- C6 counterexample: with two string descriptors both carrying id 1,
the second `gb_string_get 1` still succeeds — it resolves the second
copy — instead of failing with `StringNotFound` as the claim requires
for every index. -/
theorem c6_counterexample :
    (gb_string_get dupStringsData dupStringsIndex 1).1 =
      .ok (some [65, 66, 0]) ∧
    (gb_string_get dupStringsData
      (gb_string_get dupStringsData dupStringsIndex 1).2 1).1 =
      .ok (some [67, 68, 0]) :=
  ⟨rfl, rfl⟩

/-- C6 witness: the amended theorem applied to a one-string index. -/
theorem c6_witness :
    (([] : List ManifestDesc).find? (stringMatch oneStringData 1) = none) ∧
    gb_string_get oneStringData [] 1 = (.error (-2), []) :=
  c6_string_single_use oneStringData oneStringIndex 1 (by decide) (by decide)
    (.ok (some [65, 66, 0])) [] (by rfl) ⟨[65, 66, 0], rfl⟩

/-- C7: if resolving the vendor string id or the product string id
fails, `gb_manifest_parse_module` returns no module; and any module it
does return is fully assembled — both strings resolved and every field
taken from the module descriptor.  (The source signals failure only by
returning NULL; the resolution error's identity is logged, not
propagated, and freeing of the interim allocations is a memory-level
behavior outside this model.) -/
theorem c7_no_partial_module (data : List ℕ) (md : ManifestDesc)
    (descs : List ManifestDesc) :
    ((∃ e, (gb_string_get data descs
        (byteAt data (md.offset + HEADER_SIZE + 6))).1 = .error e) →
      (gb_manifest_parse_module data md descs).1 = none) ∧
    ((∃ e, (gb_string_get data
        (gb_string_get data descs (byteAt data (md.offset + HEADER_SIZE + 6))).2
        (byteAt data (md.offset + HEADER_SIZE + 7))).1 = .error e) →
      (gb_manifest_parse_module data md descs).1 = none) ∧
    (∀ m, (gb_manifest_parse_module data md descs).1 = some m →
      ∃ vstr pstr,
        (gb_string_get data descs
          (byteAt data (md.offset + HEADER_SIZE + 6))).1 = .ok vstr ∧
        (gb_string_get data
          (gb_string_get data descs (byteAt data (md.offset + HEADER_SIZE + 6))).2
          (byteAt data (md.offset + HEADER_SIZE + 7))).1 = .ok pstr ∧
        m = { vendor := le16At data (md.offset + HEADER_SIZE),
              product := le16At data (md.offset + HEADER_SIZE + 2),
              version := le16At data (md.offset + HEADER_SIZE + 4),
              serial_number := le64At data (md.offset + HEADER_SIZE + 8),
              vendor_string := vstr,
              product_string := pstr }) := by
  unfold gb_manifest_parse_module
  cases hv : (gb_string_get data descs
      (byteAt data (md.offset + HEADER_SIZE + 6))).1 with
  | error e =>
    simp only [hv]
    exact ⟨fun _ => trivial, fun _ => trivial, fun m hm => by simp at hm⟩
  | ok vstr =>
    simp only [hv]
    cases hp : (gb_string_get data
        (gb_string_get data descs (byteAt data (md.offset + HEADER_SIZE + 6))).2
        (byteAt data (md.offset + HEADER_SIZE + 7))).1 with
    | error e =>
      simp only [hp]
      refine ⟨fun h => ?_, fun _ => trivial, fun m hm => by simp at hm⟩
      obtain ⟨e', he'⟩ := h
      simp at he'
    | ok pstr =>
      simp only [hp]
      refine ⟨fun h => ?_, fun h => ?_, fun m hm => ?_⟩
      · obtain ⟨e', he'⟩ := h
        simp at he'
      · obtain ⟨e', he'⟩ := h
        simp at he'
      · simp only [Option.some.injEq] at hm
        exact ⟨vstr, pstr, rfl, rfl, hm.symm⟩

/-- C7 witness: a module descriptor naming vendor string id 1 over an
empty index makes the assembly fail with no module returned. -/
theorem c7_witness :
    (gb_manifest_parse_module vendorSidData ⟨19, 0, 1⟩ []).1 = none :=
  (c7_no_partial_module vendorSidData ⟨19, 0, 1⟩ []).1 ⟨-2, rfl⟩

/-- C8: the CPort allocator always hands out the lowest free id in
`[0, max)`: `N ≤ max` sequential allocations from empty return exactly
`0, …, N-1` in order; a successful allocation returns the least
unallocated id (also right after a `free`); and allocation fails
exactly when every id below `max` is taken. -/
theorem c8_allocator_lowest_free :
    (∀ max N, N ≤ max → (allocRun max N).1 = List.range N) ∧
    (∀ max s i s', cportAlloc max s = some (i, s') →
      i < max ∧ i ∉ s ∧ (∀ j, j < i → j ∈ s) ∧ s' = insert i s) ∧
    (∀ max s, (∀ i, i < max → i ∈ s) → cportAlloc max s = none) ∧
    (∀ max s k i s', cportAlloc max (cportFree s k) = some (i, s') →
      i ∉ cportFree s k ∧ ∀ j, j < i → j ∈ cportFree s k) := by
  refine ⟨fun max N h => by rw [allocRun_eq max N h],
          fun max s i s' h => cportAlloc_some max s i s' h,
          fun max s h => ?_,
          fun max s k i s' h =>
            ⟨(cportAlloc_some _ _ _ _ h).2.1,
             (cportAlloc_some _ _ _ _ h).2.2.1⟩⟩
  unfold cportAlloc
  rw [findFree_none_of_full s max 0 (fun j _ hj => h j (by omega))]
  rfl

/-- C8 witness: two allocations from empty with bound 2 return ids
`[0, 1]`. -/
theorem c8_witness : (allocRun 2 2).1 = List.range 2 :=
  c8_allocator_lowest_free.1 2 2 (by decide)

/-- C9: in every state reachable by any sequence of connection creates
and destroys on one host, live connections hold pairwise distinct local
cport ids, every live id is currently allocated, and destroying a
connection removes its id from the live set and returns it to the free
pool. -/
theorem c9_local_cport_ids_unique (max : ℕ) (ops : List GbOp) :
    (runOps max ops).conns.Nodup ∧
    (∀ i ∈ (runOps max ops).conns, i ∈ (runOps max ops).allocated) ∧
    ∀ k, k < (runOps max ops).conns.length →
      (runOps max ops).conns.getD k 0 ∉
        (stepOp max (runOps max ops) (.destroy k)).allocated ∧
      (runOps max ops).conns.getD k 0 ∉
        (stepOp max (runOps max ops) (.destroy k)).conns := by
  have hInv := runOps_inv max ops
  exact ⟨hInv.1, hInv.2, fun k hk => destroy_removes max _ hInv k hk⟩

/-- C9 witness: after one create on a 1-slot host, destroying the
single connection removes its id from the live set. -/
theorem c9_witness :
    (runOps 1 [GbOp.create]).conns.getD 0 0 ∉
      (stepOp 1 (runOps 1 [GbOp.create]) (.destroy 0)).conns :=
  ((c9_local_cport_ids_unique 1 [GbOp.create]).2.2 0 (by decide)).2

/-- C10: on a fresh connection (counter initialized to zero by
`gb_connection_create`), the first `gb_connection_op_id` call returns 1,
never 0; id 0 first appears at call `U16_MAX` = 65535, when the returned
id wraps. -/
theorem c10_first_op_id_is_one :
    (gb_connection_op_id 0).1 = 1 ∧
    (∀ n, 1 ≤ n → n < U16_MAX → opIdSeq 0 n = n ∧ opIdSeq 0 n ≠ 0) ∧
    opIdSeq 0 U16_MAX = 0 := by
  refine ⟨by decide, fun n h1 h2 => ?_, ?_⟩
  · have he : opIdSeq 0 n = n := by
      rw [opIdSeq_eq 0 n h1]
      unfold U16_MAX at h2
      rw [show (0 + n) % 2 ^ 32 = n by omega]
      unfold gVal
      split_ifs <;> omega
    exact ⟨he, by omega⟩
  · rw [show U16_MAX = 65535 from rfl, opIdSeq_eq 0 65535 (by norm_num)]
    decide

/-- C10 witness: the theorem applied to call 3. -/
theorem c10_witness : opIdSeq 0 3 = 3 ∧ opIdSeq 0 3 ≠ 0 :=
  c10_first_op_id_is_one.2.1 3 (by decide) (by decide)

end Greybus
